import Mathlib

/-!
Verification of `src/truescrub/highlights.py` (the truescrub daily
highlights digest) against its natural-language specification.

The Python module issues read-only SQL queries against a SQLite match
store.  We embed the store as lists of rows and each query as a pure
function over them, following the SQL text:
* `WHERE x BETWEEN a AND b` is the closed interval `a ≤ x ≤ b`;
* `MIN` / `MAX` over an empty set is SQL `NULL`, embedded as `Option`;
* `GROUP BY k` produces one output row per distinct key of the joined
  rows; `ORDER BY` is a stable sort (groups are enumerated in key order
  where a tie-order claim depends on it, matching the SQLite sorter);
* a `JOIN` is a filtered cross product;
* `execute_one` on an empty result raises `StopIteration`, embedded as
  `Option.none`; the uncaught `IndexError` of `rating_extremes[0]` on an
  empty list and the `StopIteration` signalling an empty day are embedded
  as an `Except` error value.

`src/truescrub/db.py` (the `COEFFICIENTS` configuration) and
`src/truescrub/models.py` (the `Player` class with its derived `mmr`
and `skill_group`) are not part of the sources; they are modelled from
the specification as explicit parameters, see `Coefficients` and
`SkillModel` below.
-/

namespace Truescrub

/-- Row of the `rounds` table: identifier, creation timestamp (seconds),
map reference and optional MVP player reference (`NULL` when no MVP was
recorded for the round). -/
structure RoundRow where
  round_id : Nat
  created_at : Nat
  map_id : Nat
  mvp : Option Nat
deriving DecidableEq

/-- Row of the `maps` table. -/
structure MapRow where
  map_id : Nat
  map_name : String
deriving DecidableEq

/-- Row of the `rating_components` table: one row per (round, player)
with the four real-valued sub-scores, embedded as rationals. -/
structure RatingComponentsRow where
  round_id : Nat
  player_id : Nat
  kill_rating : ℚ
  death_rating : ℚ
  damage_rating : ℚ
  kas_rating : ℚ
deriving DecidableEq

/-- Row of the `season_skill_history` table: per (player, round) skill
snapshot. -/
structure SkillHistoryRow where
  player_id : Nat
  round_id : Nat
  skill_mean : ℚ
  skill_stdev : ℚ
deriving DecidableEq

/-- Row of the `players` table. -/
structure PlayerRow where
  player_id : Nat
  steam_name : String
deriving DecidableEq

/-- The read-only snapshot of the match store seen by one invocation. -/
structure SkillDB where
  rounds : List RoundRow
  maps : List MapRow
  rating_components : List RatingComponentsRow
  season_skill_history : List SkillHistoryRow
  players : List PlayerRow

/-- Modelled from the spec: `db.COEFFICIENTS` (src/truescrub/db.py is not
among the sources).  The five impact-rating coefficients are externally
supplied configuration, constant for the lifetime of the process; the
spec directs that they be injected explicitly. -/
structure Coefficients where
  c1 : ℚ
  c2 : ℚ
  c3 : ℚ
  c4 : ℚ
  c5 : ℚ

/-- Modelled from the spec: `models.Player` (src/truescrub/models.py is
not among the sources).  A `Player` snapshot carries a derived rating
value (`mmr`) and a derived skill-group label, both functions of the
skill mean and standard deviation; the derivation itself is external, so
it is a parameter of the embedding. -/
structure SkillModel where
  mmr : ℚ → ℚ → ℚ
  skill_group : ℚ → ℚ → String

/-- In-memory player snapshot built by `get_skill_changes_between_rounds`
(`Player(player_id, steam_name, skill_mean, skill_stdev, 0.0)` in the
source). -/
structure Player where
  player_id : Nat
  steam_name : String
  skill_mean : ℚ
  skill_stdev : ℚ
deriving DecidableEq

/-- Derived rating value of a snapshot (`Player.mmr` in models.py). -/
def Player.mmr (sm : SkillModel) (p : Player) : ℚ :=
  sm.mmr p.skill_mean p.skill_stdev

/-- Derived skill-group label of a snapshot (`Player.skill_group`). -/
def Player.skill_group (sm : SkillModel) (p : Player) : String :=
  sm.skill_group p.skill_mean p.skill_stdev

/-- One `datetime.timedelta(days=1)` in seconds. -/
def daySeconds : Nat := 86400

/-- SQL `MIN` aggregate over a column: `NULL` (none) on the empty set. -/
def sqlMin {α : Type} [LinearOrder α] : List α → Option α
  | [] => none
  | x :: xs =>
    match sqlMin xs with
    | none => some x
    | some m => some (min x m)

/-- SQL `MAX` aggregate over a column: `NULL` (none) on the empty set. -/
def sqlMax {α : Type} [LinearOrder α] : List α → Option α
  | [] => none
  | x :: xs =>
    match sqlMax xs with
    | none => some x
    | some m => some (max x m)

/-- Rounds whose `created_at` lies in `day BETWEEN day AND day+1`
(SQL `BETWEEN` is inclusive at both endpoints). -/
def roundsOfDay (db : SkillDB) (day : Nat) : List RoundRow :=
  db.rounds.filter fun r =>
    decide (day ≤ r.created_at ∧ r.created_at ≤ day + daySeconds)

/-- Embedding of `get_round_range_for_day`:
`SELECT MIN(round_id), MAX(round_id), COUNT(*) FROM rounds
WHERE created_at BETWEEN ? AND ?` with parameters `(day, next_day)`. -/
def get_round_range_for_day (db : SkillDB) (day : Nat) :
    (Option Nat × Option Nat) × Nat :=
  let ids := (roundsOfDay db day).map (·.round_id)
  ((sqlMin ids, sqlMax ids), ids.length)

/-- Rounds with `round_id BETWEEN first AND last` (inclusive). -/
def roundsInRange (db : SkillDB) (rr : Nat × Nat) : List RoundRow :=
  db.rounds.filter fun r =>
    decide (rr.1 ≤ r.round_id ∧ r.round_id ≤ rr.2)

/-- Joined map names of the rounds in range: the `rounds JOIN maps ON
rounds.map_id = maps.map_id` rows, one name per joined row. -/
def mapNamesInRange (db : SkillDB) (rr : Nat × Nat) : List String :=
  (roundsInRange db rr).flatMap fun r =>
    (db.maps.filter fun m => decide (m.map_id = r.map_id)).map (·.map_name)

/-- Order of the map-popularity output: `ORDER BY round_count DESC`,
with ties left in the ascending map-name order in which `GROUP BY
map_name` enumerates the groups (the stable-sort model of the SQLite
pipeline). -/
def mapCountLe (a b : String × Nat) : Prop :=
  b.2 < a.2 ∨ (a.2 = b.2 ∧ a.1 ≤ b.1)

instance : DecidableRel mapCountLe := fun a b => by
  unfold mapCountLe; infer_instance

instance : IsTotal (String × Nat) mapCountLe where
  total a b := by
    rcases lt_trichotomy a.2 b.2 with h | h | h
    · exact Or.inr (Or.inl h)
    · rcases le_total a.1 b.1 with h1 | h1
      · exact Or.inl (Or.inr ⟨h, h1⟩)
      · exact Or.inr (Or.inr ⟨h.symm, h1⟩)
    · exact Or.inl (Or.inl h)

instance : IsTrans (String × Nat) mapCountLe where
  trans a b c hab hbc := by
    rcases hab with hab | ⟨hab, hab1⟩
    · rcases hbc with hbc | ⟨hbc, _⟩
      · exact Or.inl (hbc.trans hab)
      · exact Or.inl (hbc ▸ hab)
    · rcases hbc with hbc | ⟨hbc, hbc1⟩
      · exact Or.inl (hab ▸ hbc)
      · exact Or.inr ⟨hab.trans hbc, hab1.trans hbc1⟩

/-- Embedding of `get_most_played_maps_between_rounds`:
`SELECT map_name, COUNT(*) FROM rounds JOIN maps ON rounds.map_id =
maps.map_id WHERE round_id BETWEEN ? AND ? GROUP BY map_name ORDER BY
round_count DESC` — one `(map_name, round_count)` entry per distinct
joined map name (the Python caller wraps the rows in `dict`, which
preserves this order). -/
def get_most_played_maps_between_rounds (db : SkillDB) (rr : Nat × Nat) :
    List (String × Nat) :=
  let names := mapNamesInRange db rr
  let groups := (List.insertionSort (· ≤ ·) names.dedup).map
    fun nm => (nm, names.count nm)
  List.insertionSort mapCountLe groups

/-- Rows of `rating_components` with `rc.round_id BETWEEN ? AND ?`. -/
def componentRowsInRange (db : SkillDB) (rr : Nat × Nat) :
    List RatingComponentsRow :=
  db.rating_components.filter fun s =>
    decide (rr.1 ≤ s.round_id ∧ s.round_id ≤ rr.2)

/-- One row of the `components` / `impact_ratings` CTEs of
`get_rating_extremes_between_rounds`. -/
structure ImpactRating where
  player_id : Nat
  rating : ℚ
  average_kills : ℚ
  average_deaths : ℚ
  average_damage : ℚ
  average_kas : ℚ
  rounds_played : Nat
deriving DecidableEq

/-- The `components` row of one player (`AVG` of each sub-score and
`COUNT(*)`) extended with the `impact_ratings` linear combination
`c1*avg_kills + c2*avg_deaths + c3*avg_damage + c4*avg_kas + c5`. -/
def playerComponent (c : Coefficients) (rows : List RatingComponentsRow)
    (pid : Nat) : ImpactRating :=
  let prows := rows.filter fun s => decide (s.player_id = pid)
  let n : ℚ := prows.length
  let ak := (prows.map (·.kill_rating)).sum / n
  let ad := (prows.map (·.death_rating)).sum / n
  let adm := (prows.map (·.damage_rating)).sum / n
  let aks := (prows.map (·.kas_rating)).sum / n
  { player_id := pid
    rating := c.c1 * ak + c.c2 * ad + c.c3 * adm + c.c4 * aks + c.c5
    average_kills := ak
    average_deaths := ad
    average_damage := adm
    average_kas := aks
    rounds_played := prows.length }

/-- The `GROUP BY rc.player_id` keys: the distinct player identifiers
among the in-range component rows. -/
def groupPlayerIds (rows : List RatingComponentsRow) : List Nat :=
  (rows.map (·.player_id)).dedup

/-- The `impact_ratings` CTE: one row per distinct player of the
in-range component rows. -/
def impact_ratings (c : Coefficients) (db : SkillDB) (rr : Nat × Nat) :
    List ImpactRating :=
  (groupPlayerIds (componentRowsInRange db rr)).map
    (playerComponent c (componentRowsInRange db rr))

/-- The shaped rating-extreme record built by the Python list
comprehension from one result row. -/
structure RatingExtreme where
  player_id : Nat
  steam_name : String
  impact_rating : ℚ
  average_kills : ℚ
  average_deaths : ℚ
  average_damage : ℚ
  average_kas : ℚ
  rounds_played : Nat
deriving DecidableEq

/-- Shape one joined `(players, impact_ratings)` row; the displayed
average-deaths value is negated (`-ir.average_deaths AS average_deaths`
in the outer SELECT). -/
def mkRatingExtreme (p : PlayerRow) (ir : ImpactRating) : RatingExtreme :=
  { player_id := p.player_id
    steam_name := p.steam_name
    impact_rating := ir.rating
    average_kills := ir.average_kills
    average_deaths := -ir.average_deaths
    average_damage := ir.average_damage
    average_kas := ir.average_kas
    rounds_played := ir.rounds_played }

/-- The ratings column of the `impact_ratings` CTE, source of the
`(SELECT MIN(rating) ...)` and `(SELECT MAX(rating) ...)` subqueries. -/
def ratingValues (c : Coefficients) (db : SkillDB) (rr : Nat × Nat) :
    List ℚ :=
  (impact_ratings c db rr).map (·.rating)

/-- The outer SELECT of `get_rating_extremes_between_rounds`:
`players JOIN impact_ratings` on equal player identifier with
`ir.rating IN (MIN(rating), MAX(rating))` (membership in an SQL `IN`
list built from two subqueries; a `NULL` subquery value matches
nothing). -/
def rating_extreme_rows (c : Coefficients) (db : SkillDB)
    (rr : Nat × Nat) : List RatingExtreme :=
  let irs := impact_ratings c db rr
  let rv := ratingValues c db rr
  db.players.flatMap fun p =>
    (irs.filter fun ir =>
      decide (ir.player_id = p.player_id ∧
        (sqlMin rv = some ir.rating ∨ sqlMax rv = some ir.rating))).map
      (mkRatingExtreme p)

/-- The Python sort key: `rating_extremes.sort(key=itemgetter($impact))`,
ascending by impact rating. -/
def extremeLe (a b : RatingExtreme) : Prop :=
  a.impact_rating ≤ b.impact_rating

instance : DecidableRel extremeLe := fun a b => by
  unfold extremeLe; infer_instance

instance : IsTotal RatingExtreme extremeLe where
  total a b := le_total a.impact_rating b.impact_rating

instance : IsTrans RatingExtreme extremeLe where
  trans _ _ _ hab hbc := le_trans hab hbc

/-- Embedding of `get_rating_extremes_between_rounds`: shape the rows,
sort ascending by impact rating, return `(rows[0], rows[-1])`; indexing
an empty list raises `IndexError`, embedded as `none`. -/
def get_rating_extremes_between_rounds (c : Coefficients) (db : SkillDB)
    (rr : Nat × Nat) : Option (RatingExtreme × RatingExtreme) :=
  match List.insertionSort extremeLe (rating_extreme_rows c db rr) with
  | [] => none
  | x :: xs => some (x, (x :: xs).getLast (List.cons_ne_nil x xs))

/-- Shaped result of `get_player_with_most_mvps_between_rounds`. -/
structure MvpEntry where
  player_id : Nat
  steam_name : String
  mvps : Nat
deriving DecidableEq

/-- The `players JOIN rounds ON players.player_id = rounds.mvp` rows
with `rounds.round_id BETWEEN ? AND ?` (a `NULL` mvp joins nothing). -/
def mvpJoinRows (db : SkillDB) (rr : Nat × Nat) :
    List (PlayerRow × RoundRow) :=
  db.players.flatMap fun p =>
    ((db.rounds.filter fun r =>
      decide (r.mvp = some p.player_id ∧
        rr.1 ≤ r.round_id ∧ r.round_id ≤ rr.2)).map fun r => (p, r))

/-- The `GROUP BY players.player_id, players.steam_name` step of the MVP
query: one `(player_id, steam_name, COUNT(*))` entry per distinct key of
the joined rows. -/
def mvpGroups (db : SkillDB) (rr : Nat × Nat) : List MvpEntry :=
  let rows := mvpJoinRows db rr
  ((rows.map fun pr => (pr.1.player_id, pr.1.steam_name)).dedup).map
    fun k =>
      { player_id := k.1
        steam_name := k.2
        mvps := (rows.filter fun pr =>
          decide (pr.1.player_id = k.1 ∧ pr.1.steam_name = k.2)).length }

/-- The `ORDER BY mvps DESC` relation of the MVP query. -/
def mvpGe (a b : MvpEntry) : Prop := b.mvps ≤ a.mvps

instance : DecidableRel mvpGe := fun a b => by
  unfold mvpGe; infer_instance

instance : IsTotal MvpEntry mvpGe where
  total a b := le_total b.mvps a.mvps

instance : IsTrans MvpEntry mvpGe where
  trans _ _ _ hab hbc := le_trans hbc hab

/-- Embedding of `get_player_with_most_mvps_between_rounds`:
`execute_one` takes the first row of the descending-ordered groups and
raises `StopIteration` when there is none, embedded as `none` (the
caller in `get_highlights` catches it into a `None` field). -/
def get_player_with_most_mvps_between_rounds (db : SkillDB)
    (rr : Nat × Nat) : Option MvpEntry :=
  (List.insertionSort mvpGe (mvpGroups db rr)).head?

/-- Skill-history rows of one player at or before the first round of the
window (the candidate set of the `MAX(ssh_before.round_id)` subquery). -/
def historyBefore (db : SkillDB) (pid : Nat) (first : Nat) :
    List SkillHistoryRow :=
  db.season_skill_history.filter fun s =>
    decide (s.player_id = pid ∧ s.round_id ≤ first)

/-- Skill-history rows of one player at or after the last round of the
window (the candidate set of the `MIN(ssh_after.round_id)` subquery). -/
def historyAfter (db : SkillDB) (pid : Nat) (last : Nat) :
    List SkillHistoryRow :=
  db.season_skill_history.filter fun s =>
    decide (s.player_id = pid ∧ last ≤ s.round_id)

/-- The triple join of `get_skill_changes_between_rounds`: each player
row joined with its `earlier_ssh` row (round identifier equal to the
`MAX` at or before `first`) and its `later_ssh` row (round identifier
equal to the `MIN` at or after `last`); a `NULL` subquery value joins
nothing, so a player lacking a snapshot on either side contributes no
row. -/
def skill_change_rows (db : SkillDB) (rr : Nat × Nat) :
    List (PlayerRow × SkillHistoryRow × SkillHistoryRow) :=
  db.players.flatMap fun p =>
    (db.season_skill_history.filter fun e =>
      decide (e.player_id = p.player_id ∧
        sqlMax ((historyBefore db p.player_id rr.1).map (·.round_id)) =
          some e.round_id)).flatMap fun e =>
      (db.season_skill_history.filter fun l =>
        decide (l.player_id = p.player_id ∧
          sqlMin ((historyAfter db p.player_id rr.2).map (·.round_id)) =
            some l.round_id)).map fun l => (p, e, l)

/-- The two `Player` snapshots built from one skill-change row. -/
def mkSkillChangePair (t : PlayerRow × SkillHistoryRow × SkillHistoryRow) :
    Player × Player :=
  (⟨t.1.player_id, t.1.steam_name, t.2.1.skill_mean, t.2.1.skill_stdev⟩,
   ⟨t.1.player_id, t.1.steam_name, t.2.2.skill_mean, t.2.2.skill_stdev⟩)

/-- The Python sort key `key=lambda change: -change[1].mmr`: descending
by the mmr of the later snapshot. -/
def changeGe (sm : SkillModel) (a b : Player × Player) : Prop :=
  Player.mmr sm b.2 ≤ Player.mmr sm a.2

instance (sm : SkillModel) : DecidableRel (changeGe sm) := fun a b => by
  unfold changeGe; infer_instance

instance (sm : SkillModel) : IsTotal (Player × Player) (changeGe sm) where
  total a b := le_total (Player.mmr sm b.2) (Player.mmr sm a.2)

instance (sm : SkillModel) : IsTrans (Player × Player) (changeGe sm) where
  trans _ _ _ hab hbc := le_trans hbc hab

/-- Embedding of `get_skill_changes_between_rounds`: build the snapshot
pairs, sort descending by the mmr of the later snapshot, then keep only
the pairs whose derived skill-group labels differ. -/
def get_skill_changes_between_rounds (sm : SkillModel) (db : SkillDB)
    (rr : Nat × Nat) : List (Player × Player) :=
  let skill_changes :=
    (skill_change_rows db rr).map mkSkillChangePair
  (List.insertionSort (changeGe sm) skill_changes).filter fun pr =>
    decide (Player.skill_group sm pr.1 ≠ Player.skill_group sm pr.2)

/-- One entry of the shaped `season_skill_group_changes` list. -/
structure SkillChangeEntry where
  player_id : Nat
  steam_name : String
  previous_mmr : ℚ
  previous_skill_group : String
  next_mmr : ℚ
  next_skill_group : String
deriving DecidableEq

/-- Shape one skill-change pair into its digest entry. -/
def mkSkillChangeEntry (sm : SkillModel) (pr : Player × Player) :
    SkillChangeEntry :=
  { player_id := pr.1.player_id
    steam_name := pr.1.steam_name
    previous_mmr := Player.mmr sm pr.1
    previous_skill_group := Player.skill_group sm pr.1
    next_mmr := Player.mmr sm pr.2
    next_skill_group := Player.skill_group sm pr.2 }

/-- The digest returned by `get_highlights`; the `time_window` ISO-8601
strings are embedded as the pair of boundary timestamps. -/
structure Digest where
  time_window : Nat × Nat
  rounds_played : Nat
  lowest_rating : RatingExtreme
  highest_rating : RatingExtreme
  season_skill_group_changes : List SkillChangeEntry
  most_played_maps : List (String × Nat)
  most_mvps : Option MvpEntry

/-- The two ways `get_highlights` can raise: the `StopIteration` that
signals an empty day (NoActivity) and the uncaught `IndexError` of
`rating_extremes[0]` on an empty candidate list. -/
inductive HighlightsError
  | NoActivity
  | IndexError
deriving DecidableEq

/-- Embedding of `get_highlights`: resolve the round window, signal
NoActivity when the day has no rounds, otherwise run the four component
queries over the resolved range and assemble the digest; only the MVP
query may come back empty without failing the digest. -/
def get_highlights (c : Coefficients) (sm : SkillModel) (db : SkillDB)
    (day : Nat) : Except HighlightsError Digest :=
  let rr := get_round_range_for_day db day
  if rr.2 = 0 then .error .NoActivity
  else
    match rr.1 with
    | (some first, some last) =>
      match get_rating_extremes_between_rounds c db (first, last) with
      | none => .error .IndexError
      | some (lowest, highest) =>
        .ok
          { time_window := (day, day + daySeconds)
            rounds_played := rr.2
            lowest_rating := lowest
            highest_rating := highest
            season_skill_group_changes :=
              (get_skill_changes_between_rounds sm db (first, last)).map
                (mkSkillChangeEntry sm)
            most_played_maps :=
              get_most_played_maps_between_rounds db (first, last)
            most_mvps :=
              get_player_with_most_mvps_between_rounds db (first, last) }
    | _ =>
      -- unreachable: a nonzero count forces both aggregate bounds
      .error .IndexError

/-- Rounds in range that reference a map of the given name (used to
state that the popularity count of a name is the number of rounds
referencing that map). -/
def roundsForName (db : SkillDB) (rr : Nat × Nat) (nm : String) :
    List RoundRow :=
  (roundsInRange db rr).filter fun r =>
    decide (∃ m ∈ db.maps, m.map_id = r.map_id ∧ m.map_name = nm)

/-- Number of rounds in range whose MVP reference equals the given
player (used to state the MVP Leader claims). -/
def mvpCount (db : SkillDB) (rr : Nat × Nat) (pid : Nat) : Nat :=
  (db.rounds.filter fun r =>
    decide (r.mvp = some pid ∧ rr.1 ≤ r.round_id ∧ r.round_id ≤ rr.2)).length

/-- Concrete coefficient set used for witness evaluations (the spec only
fixes that the five coefficients are external configuration). -/
def cEx : Coefficients := ⟨2, -1, 1, 1, 3⟩

/-- Concrete skill-derivation model used for witness evaluations. -/
def smEx : SkillModel :=
  ⟨fun m s => m - 2 * s,
   fun m s => if m - 2 * s ≤ 10 then "Silver" else "Gold"⟩

/-- Store snapshot with no rows at all. -/
def dbEmpty : SkillDB := ⟨[], [], [], [], []⟩

/-- Store snapshot with a single round created exactly at the boundary
timestamp between day 0 and day 1. -/
def dbBoundary : SkillDB := ⟨[⟨1, daySeconds, 0, none⟩], [], [], [], []⟩

/-- Store snapshot with one round on day 0 but no rating-component rows
for it. -/
def dbNoComponents : SkillDB :=
  ⟨[⟨5, 100, 7, none⟩], [⟨7, "de_dust2"⟩], [], [], [⟨1, "alice"⟩]⟩

/-- Store snapshot with three rounds on de_dust2 and two on de_mirage,
all inside the identifier range 1..5. -/
def dbMaps : SkillDB :=
  ⟨[⟨1, 0, 1, none⟩, ⟨2, 0, 1, none⟩, ⟨3, 0, 2, none⟩, ⟨4, 0, 1, none⟩,
    ⟨5, 0, 2, none⟩],
   [⟨1, "de_dust2"⟩, ⟨2, "de_mirage"⟩], [], [], []⟩

/-- Store snapshot with one round on day 0, rating components for one
player, and no MVP recorded on any round. -/
def dbNoMvp : SkillDB :=
  ⟨[⟨1, 0, 1, none⟩], [⟨1, "de_dust2"⟩], [⟨1, 7, 1, -2, 3, 4⟩], [],
   [⟨7, "alice"⟩]⟩

/-- Store snapshot with skill-history snapshots at rounds 5, 15 and 25
for one player (the bracketing scenario of the spec: window 10..20). -/
def dbSkill : SkillDB :=
  ⟨[], [], [],
   [⟨1, 5, 10, 2⟩, ⟨1, 15, 12, 2⟩, ⟨1, 25, 20, 1⟩],
   [⟨1, "alice"⟩]⟩

/-- Store snapshot with three rounds whose MVP references give alice one
MVP and bob two. -/
def dbMvp : SkillDB :=
  ⟨[⟨1, 0, 1, some 1⟩, ⟨2, 0, 1, some 2⟩, ⟨3, 0, 1, some 2⟩],
   [⟨1, "de_dust2"⟩], [], [],
   [⟨1, "alice"⟩, ⟨2, "bob"⟩]⟩

section MinMaxLemmas

variable {α : Type} [LinearOrder α]

theorem sqlMin_eq_none_iff {l : List α} : sqlMin l = none ↔ l = [] := by
  cases l with
  | nil => simp [sqlMin]
  | cons x xs =>
    simp only [sqlMin]
    cases sqlMax xs <;> cases h : sqlMin xs <;> simp [h]

theorem sqlMax_eq_none_iff {l : List α} : sqlMax l = none ↔ l = [] := by
  cases l with
  | nil => simp [sqlMax]
  | cons x xs =>
    simp only [sqlMax]
    cases h : sqlMax xs <;> simp [h]

theorem sqlMin_exists {l : List α} (h : l ≠ []) : ∃ a, sqlMin l = some a := by
  cases hm : sqlMin l with
  | none => exact absurd (sqlMin_eq_none_iff.mp hm) h
  | some a => exact ⟨a, rfl⟩

theorem sqlMax_exists {l : List α} (h : l ≠ []) : ∃ a, sqlMax l = some a := by
  cases hm : sqlMax l with
  | none => exact absurd (sqlMax_eq_none_iff.mp hm) h
  | some a => exact ⟨a, rfl⟩

theorem sqlMin_mem {l : List α} {a : α} (h : sqlMin l = some a) : a ∈ l := by
  induction l generalizing a with
  | nil => simp [sqlMin] at h
  | cons x xs ih =>
    simp only [sqlMin] at h
    cases hm : sqlMin xs with
    | none =>
      rw [hm] at h
      simp only [Option.some.injEq] at h
      simp [← h]
    | some m =>
      rw [hm] at h
      simp only [Option.some.injEq] at h
      rcases min_choice x m with hc | hc
      · rw [hc] at h
        simp [← h]
      · rw [hc] at h
        subst h
        exact List.mem_cons_of_mem x (ih hm)

theorem sqlMax_mem {l : List α} {a : α} (h : sqlMax l = some a) : a ∈ l := by
  induction l generalizing a with
  | nil => simp [sqlMax] at h
  | cons x xs ih =>
    simp only [sqlMax] at h
    cases hm : sqlMax xs with
    | none =>
      rw [hm] at h
      simp only [Option.some.injEq] at h
      simp [← h]
    | some m =>
      rw [hm] at h
      simp only [Option.some.injEq] at h
      rcases max_choice x m with hc | hc
      · rw [hc] at h
        simp [← h]
      · rw [hc] at h
        subst h
        exact List.mem_cons_of_mem x (ih hm)

theorem sqlMin_le {l : List α} {a : α} (h : sqlMin l = some a) :
    ∀ b ∈ l, a ≤ b := by
  induction l generalizing a with
  | nil => simp
  | cons x xs ih =>
    simp only [sqlMin] at h
    cases hm : sqlMin xs with
    | none =>
      rw [hm] at h
      simp only [Option.some.injEq] at h
      have hxs : xs = [] := sqlMin_eq_none_iff.mp hm
      subst hxs
      subst h
      simp
    | some m =>
      rw [hm] at h
      simp only [Option.some.injEq] at h
      subst h
      intro b hb
      rcases List.mem_cons.mp hb with hb | hb
      · subst hb
        exact min_le_left _ _
      · exact le_trans (min_le_right x m) (ih hm b hb)

theorem le_sqlMax {l : List α} {a : α} (h : sqlMax l = some a) :
    ∀ b ∈ l, b ≤ a := by
  induction l generalizing a with
  | nil => simp
  | cons x xs ih =>
    simp only [sqlMax] at h
    cases hm : sqlMax xs with
    | none =>
      rw [hm] at h
      simp only [Option.some.injEq] at h
      have hxs : xs = [] := sqlMax_eq_none_iff.mp hm
      subst hxs
      subst h
      simp
    | some m =>
      rw [hm] at h
      simp only [Option.some.injEq] at h
      subst h
      intro b hb
      rcases List.mem_cons.mp hb with hb | hb
      · subst hb
        exact le_max_left _ _
      · exact le_trans (ih hm b hb) (le_max_right x m)

end MinMaxLemmas

theorem joined_names_count_single (maps : List MapRow)
    (hmaps : (maps.map (·.map_id)).Nodup) (mid : Nat) (nm : String) :
    ((maps.filter fun m => decide (m.map_id = mid)).map
        (·.map_name)).count nm =
      if ∃ m ∈ maps, m.map_id = mid ∧ m.map_name = nm then 1 else 0 := by
  induction maps with
  | nil => simp
  | cons m ms ih =>
    simp only [List.map_cons, List.nodup_cons] at hmaps
    obtain ⟨hm, hms⟩ := hmaps
    rw [List.filter_cons]
    by_cases hid : m.map_id = mid
    · have hnone : ms.filter (fun m => decide (m.map_id = mid)) = [] := by
        rw [List.filter_eq_nil_iff]
        intro a ha
        simp only [decide_eq_true_eq]
        intro haid
        exact hm (hid ▸ haid ▸ List.mem_map_of_mem (·.map_id) ha)
      rw [if_pos (by simpa using hid), hnone]
      by_cases hnm : m.map_name = nm
      · have hex : ∃ x ∈ m :: ms, x.map_id = mid ∧ x.map_name = nm :=
          ⟨m, List.mem_cons_self m ms, hid, hnm⟩
        rw [if_pos hex]
        simp [hnm]
      · have hnex : ¬ ∃ x ∈ m :: ms, x.map_id = mid ∧ x.map_name = nm := by
          rintro ⟨x, hx, hxid, hxnm⟩
          rcases List.mem_cons.mp hx with rfl | hx
          · exact hnm hxnm
          · exact hm (hid ▸ hxid ▸ List.mem_map_of_mem (·.map_id) hx)
        rw [if_neg hnex, List.count_eq_zero]
        intro h
        exact hnm (List.mem_singleton.mp h).symm
    · rw [if_neg (by simpa using hid)]
      have hiff : (∃ x ∈ m :: ms, x.map_id = mid ∧ x.map_name = nm) ↔
          (∃ x ∈ ms, x.map_id = mid ∧ x.map_name = nm) := by
        constructor
        · rintro ⟨x, hx, hxid, hxnm⟩
          rcases List.mem_cons.mp hx with rfl | hx
          · exact absurd hxid hid
          · exact ⟨x, hx, hxid, hxnm⟩
        · rintro ⟨x, hx, hxid, hxnm⟩
          exact ⟨x, List.mem_cons_of_mem m hx, hxid, hxnm⟩
      rw [ih hms]
      exact (if_congr hiff rfl rfl).symm

theorem names_count_eq_rounds_for_name (db : SkillDB) (rr : Nat × Nat)
    (hmaps : (db.maps.map (·.map_id)).Nodup) (nm : String) :
    (mapNamesInRange db rr).count nm = (roundsForName db rr nm).length := by
  unfold mapNamesInRange roundsForName
  induction roundsInRange db rr with
  | nil => simp
  | cons r rs ih =>
    rw [List.flatMap_cons, List.count_append, List.filter_cons]
    by_cases hex : ∃ m ∈ db.maps, m.map_id = r.map_id ∧ m.map_name = nm
    · rw [if_pos (by simpa using hex), List.length_cons,
        joined_names_count_single db.maps hmaps r.map_id nm, if_pos hex,
        ih]
      omega
    · rw [if_neg (by simpa using hex),
        joined_names_count_single db.maps hmaps r.map_id nm, if_neg hex,
        ih]
      simp

/-- C7: the Map Popularity Counter returns one entry per map name
appearing in the round range with count equal to the number of rounds
referencing that map within the range; entries are ordered descending by
count, with ties between equal counts ordered by the secondary key map
name (strictly ascending), hence deterministically. -/
theorem most_played_maps_spec (db : SkillDB) (rr : Nat × Nat)
    (hmaps : (db.maps.map (·.map_id)).Nodup) :
    (∀ nm cnt,
      (nm, cnt) ∈ get_most_played_maps_between_rounds db rr ↔
        (nm ∈ mapNamesInRange db rr ∧
          cnt = (roundsForName db rr nm).length)) ∧
    ((get_most_played_maps_between_rounds db rr).map Prod.fst).Nodup ∧
    (get_most_played_maps_between_rounds db rr).Pairwise
      (fun a b => b.2 ≤ a.2 ∧ (a.2 = b.2 → a.1 < b.1)) := by
  unfold get_most_played_maps_between_rounds
  set names := mapNamesInRange db rr with hnames
  set groups := (List.insertionSort (· ≤ ·) names.dedup).map
    (fun nm => (nm, names.count nm)) with hgroups
  have hperm : List.Perm (List.insertionSort mapCountLe groups) groups :=
    List.perm_insertionSort mapCountLe groups
  have hkeyperm : List.Perm (List.insertionSort (· ≤ ·) names.dedup)
      names.dedup :=
    List.perm_insertionSort _ names.dedup
  have hnodupfstkey :
      ((List.insertionSort mapCountLe groups).map Prod.fst).Nodup := by
    have hmapperm : List.Perm
        ((List.insertionSort mapCountLe groups).map Prod.fst)
        (groups.map Prod.fst) := hperm.map Prod.fst
    rw [hmapperm.nodup_iff, hgroups, List.map_map]
    have hcomp : (Prod.fst ∘ fun nm => (nm, names.count nm)) = id := by
      funext nm
      rfl
    rw [hcomp, List.map_id]
    exact hkeyperm.nodup_iff.mpr names.nodup_dedup
  refine ⟨?_, hnodupfstkey, ?_⟩
  · intro nm cnt
    rw [hperm.mem_iff, hgroups, List.mem_map]
    constructor
    · rintro ⟨nm', hnm', heq⟩
      have h1 : nm' = nm := congrArg Prod.fst heq
      have h2 : names.count nm' = cnt := congrArg Prod.snd heq
      subst h1
      have hmemd : nm' ∈ names.dedup := hkeyperm.mem_iff.mp hnm'
      refine ⟨List.mem_dedup.mp hmemd, ?_⟩
      rw [← h2, hnames, names_count_eq_rounds_for_name db rr hmaps nm']
    · rintro ⟨hmem, rfl⟩
      refine ⟨nm, hkeyperm.mem_iff.mpr (List.mem_dedup.mpr hmem), ?_⟩
      rw [hnames, names_count_eq_rounds_for_name db rr hmaps nm]
  · have hsorted : (List.insertionSort mapCountLe groups).Pairwise
        mapCountLe :=
      List.sorted_insertionSort mapCountLe groups
    have hnodupfst : (List.insertionSort mapCountLe groups).Pairwise
        (fun a b => a.1 ≠ b.1) :=
      List.pairwise_map.mp hnodupfstkey
    refine (hsorted.and hnodupfst).imp ?_
    rintro a b ⟨hle, hne⟩
    rcases hle with hlt | ⟨heq, hnle⟩
    · exact ⟨le_of_lt hlt, fun h => absurd (h ▸ hlt) (lt_irrefl _)⟩
    · exact ⟨le_of_eq heq.symm, fun _ => lt_of_le_of_ne hnle hne⟩

/-- C1: for every day whose round window contains zero rounds,
`get_highlights` signals NoActivity — an empty-result signal distinct
from any populated digest — and the result is independent of every other
table and query, i.e. no further query contributes (the theorem holds
for every store, in particular stores on which the rating-extremes query
would itself fail). -/
theorem highlights_no_activity (c : Coefficients) (sm : SkillModel)
    (db : SkillDB) (day : Nat)
    (h : (get_round_range_for_day db day).2 = 0) :
    get_highlights c sm db day = .error .NoActivity := by
  unfold get_highlights
  simp [h]

/-- Witness for C1 at the empty store. -/
theorem highlights_no_activity_witness :
    (get_round_range_for_day dbEmpty 0).2 = 0 ∧
      get_highlights cEx smEx dbEmpty 0 = .error .NoActivity :=
  ⟨rfl, highlights_no_activity cEx smEx dbEmpty 0 rfl⟩

/-- C2 counterexample: the round-window query uses SQL `BETWEEN`, which
is inclusive at both endpoints, so a round created exactly at the
boundary timestamp (midnight of day+1) is counted in the window of day 0
AND in the window of day 1 — it belongs to two consecutive days, not to
exactly one as the half-open-interval claim states. -/
theorem round_range_day_boundary_counterexample :
    (get_round_range_for_day dbBoundary 0).2 = 1 ∧
      (get_round_range_for_day dbBoundary daySeconds).2 = 1 := by
  constructor <;> rfl

/-- C2 amended: the Round Window Resolver interprets the calendar day as
the CLOSED interval `[day, day+1]`: it returns the minimum and maximum
round identifier whose creation timestamp falls in that closed interval
plus their count, and a round whose timestamp is exactly the day
boundary belongs to both adjacent days' windows. -/
theorem round_range_closed_interval (db : SkillDB) (day : Nat)
    (h : roundsOfDay db day ≠ []) :
    ∃ f l, get_round_range_for_day db day =
        ((some f, some l), (roundsOfDay db day).length) ∧
      f ∈ (roundsOfDay db day).map (·.round_id) ∧
      l ∈ (roundsOfDay db day).map (·.round_id) ∧
      (∀ i ∈ (roundsOfDay db day).map (·.round_id), f ≤ i ∧ i ≤ l) ∧
      ∀ r ∈ db.rounds,
        (r ∈ roundsOfDay db day ↔
          day ≤ r.created_at ∧ r.created_at ≤ day + daySeconds) := by
  have hids : (roundsOfDay db day).map (·.round_id) ≠ [] := by
    simpa using h
  obtain ⟨f, hf⟩ := sqlMin_exists hids
  obtain ⟨l, hl⟩ := sqlMax_exists hids
  refine ⟨f, l, ?_, sqlMin_mem hf, sqlMax_mem hl, ?_, ?_⟩
  · simp [get_round_range_for_day, hf, hl]
  · exact fun i hi => ⟨sqlMin_le hf i hi, le_sqlMax hl i hi⟩
  · intro r hr
    simp [roundsOfDay, List.mem_filter, hr]

/-- Witness for C2 amended, at the boundary store on day 0. -/
theorem round_range_closed_interval_witness :
    roundsOfDay dbBoundary 0 ≠ [] ∧
      ∃ f l, get_round_range_for_day dbBoundary 0 =
          ((some f, some l), (roundsOfDay dbBoundary 0).length) ∧
        f ∈ (roundsOfDay dbBoundary 0).map (·.round_id) ∧
        l ∈ (roundsOfDay dbBoundary 0).map (·.round_id) ∧
        (∀ i ∈ (roundsOfDay dbBoundary 0).map (·.round_id),
          f ≤ i ∧ i ≤ l) ∧
        ∀ r ∈ dbBoundary.rounds,
          (r ∈ roundsOfDay dbBoundary 0 ↔
            0 ≤ r.created_at ∧ r.created_at ≤ 0 + daySeconds) :=
  ⟨by decide, round_range_closed_interval dbBoundary 0 (by decide)⟩

/-- C10: whenever the window of the day contains at least one round but
no rating-component row has a round identifier in the resolved range,
the rating-extremes query produces an empty candidate list, so
`get_highlights` fails with the uncaught `IndexError` of
`rating_extremes[0]` — neither a digest nor the NoActivity signal. -/
theorem highlights_index_error (c : Coefficients) (sm : SkillModel)
    (db : SkillDB) (day first last : Nat) (n : Nat)
    (hres : get_round_range_for_day db day = ((some first, some last), n))
    (hn : n ≠ 0)
    (hcomp : componentRowsInRange db (first, last) = []) :
    get_rating_extremes_between_rounds c db (first, last) = none ∧
      get_highlights c sm db day = .error .IndexError := by
  have hirs : impact_ratings c db (first, last) = [] := by
    simp [impact_ratings, groupPlayerIds, hcomp]
  have hrows : rating_extreme_rows c db (first, last) = [] := by
    simp [rating_extreme_rows, hirs]
  have hext : get_rating_extremes_between_rounds c db (first, last)
      = none := by
    simp [get_rating_extremes_between_rounds, hrows]
  refine ⟨hext, ?_⟩
  unfold get_highlights
  rw [hres]
  simp [hn, hext]

/-- Witness for C10: one round on the day, empty rating components. -/
theorem highlights_index_error_witness :
    get_round_range_for_day dbNoComponents 0 = ((some 5, some 5), 1) ∧
      (1 : Nat) ≠ 0 ∧
      componentRowsInRange dbNoComponents (5, 5) = [] ∧
      (get_rating_extremes_between_rounds cEx dbNoComponents (5, 5)
          = none ∧
        get_highlights cEx smEx dbNoComponents 0 = .error .IndexError) :=
  ⟨rfl, by decide, rfl,
    highlights_index_error cEx smEx dbNoComponents 0 5 5 1 rfl
      (by decide) rfl⟩

/-- Witness for C7 at the five-round two-map store. -/
theorem most_played_maps_spec_witness :
    (dbMaps.maps.map (·.map_id)).Nodup ∧
      ("de_dust2", 3) ∈ get_most_played_maps_between_rounds dbMaps (1, 5) :=
  ⟨by decide,
    ((most_played_maps_spec dbMaps (1, 5) (by decide)).1 "de_dust2" 3).mpr
      (by decide)⟩

theorem mvp_query_none_of_no_mvp (db : SkillDB) (rr : Nat × Nat)
    (h : ∀ r ∈ db.rounds, rr.1 ≤ r.round_id → r.round_id ≤ rr.2 →
      r.mvp = none) :
    get_player_with_most_mvps_between_rounds db rr = none := by
  have hrows : mvpJoinRows db rr = [] := by
    unfold mvpJoinRows
    rw [List.flatMap_eq_nil_iff]
    intro p _
    rw [List.map_eq_nil_iff, List.filter_eq_nil_iff]
    intro r hr
    simp only [decide_eq_true_eq]
    rintro ⟨hmvp, h1, h2⟩
    rw [h r hr h1 h2] at hmvp
    exact Option.noConfusion hmvp
  unfold get_player_with_most_mvps_between_rounds mvpGroups
  rw [hrows]
  rfl

instance : IsRefl RatingExtreme extremeLe where
  refl a := le_refl a.impact_rating

theorem pairwise_rel_head {α : Type} {r : α → α → Prop} [IsRefl α r]
    {x : α} {xs : List α} (h : List.Pairwise r (x :: xs)) :
    ∀ y ∈ x :: xs, r x y := by
  intro y hy
  rcases List.mem_cons.mp hy with rfl | hy
  · exact IsRefl.refl y
  · exact (List.pairwise_cons.mp h).1 y hy

theorem pairwise_rel_getLast {α : Type} {r : α → α → Prop} [IsRefl α r]
    {l : List α} (h : List.Pairwise r l) (hne : l ≠ []) :
    ∀ y ∈ l, r y (l.getLast hne) := by
  induction l with
  | nil => simp
  | cons a t ih =>
    cases t with
    | nil =>
      intro y hy
      rcases List.mem_cons.mp hy with rfl | hy
      · exact IsRefl.refl y
      · cases hy
    | cons b t2 =>
      intro y hy
      have hgl : (a :: b :: t2).getLast hne =
          (b :: t2).getLast (List.cons_ne_nil b t2) :=
        List.getLast_cons (List.cons_ne_nil b t2)
      rcases List.mem_cons.mp hy with rfl | hy
      · rw [hgl]
        exact (List.pairwise_cons.mp h).1 _
          (List.getLast_mem (List.cons_ne_nil b t2))
      · rw [hgl]
        exact ih (List.pairwise_cons.mp h).2 (List.cons_ne_nil b t2) y hy

theorem mem_rating_extreme_rows (c : Coefficients) (db : SkillDB)
    (rr : Nat × Nat) (x : RatingExtreme) :
    x ∈ rating_extreme_rows c db rr ↔
      ∃ p ∈ db.players, ∃ ir ∈ impact_ratings c db rr,
        ir.player_id = p.player_id ∧
        (sqlMin (ratingValues c db rr) = some ir.rating ∨
          sqlMax (ratingValues c db rr) = some ir.rating) ∧
        x = mkRatingExtreme p ir := by
  unfold rating_extreme_rows
  rw [List.mem_flatMap]
  constructor
  · rintro ⟨p, hp, hmem⟩
    obtain ⟨ir, hir, rfl⟩ := List.mem_map.mp hmem
    have hf := List.mem_filter.mp hir
    simp only [decide_eq_true_eq] at hf
    exact ⟨p, hp, ir, hf.1, hf.2.1, hf.2.2, rfl⟩
  · rintro ⟨p, hp, ir, hir, h1, h2, rfl⟩
    exact ⟨p, hp, List.mem_map.mpr
      ⟨ir, List.mem_filter.mpr ⟨hir, by simp [h1, h2]⟩, rfl⟩⟩

theorem impact_rating_row_source (c : Coefficients) (db : SkillDB)
    (rr : Nat × Nat) (ir : ImpactRating)
    (hir : ir ∈ impact_ratings c db rr) :
    ∃ row ∈ componentRowsInRange db rr, row.player_id = ir.player_id := by
  unfold impact_ratings at hir
  obtain ⟨pid, hpid, rfl⟩ := List.mem_map.mp hir
  unfold groupPlayerIds at hpid
  obtain ⟨row, hrow, hrowpid⟩ := List.mem_map.mp (List.mem_dedup.mp hpid)
  exact ⟨row, hrow, hrowpid⟩

theorem extreme_row_rating_mem (c : Coefficients) (db : SkillDB)
    (rr : Nat × Nat) (x : RatingExtreme)
    (hx : x ∈ rating_extreme_rows c db rr) :
    x.impact_rating ∈ ratingValues c db rr := by
  obtain ⟨p, _, ir, hir, _, _, rfl⟩ :=
    (mem_rating_extreme_rows c db rr x).mp hx
  exact List.mem_map.mpr ⟨ir, hir, rfl⟩

theorem extreme_row_player_source (c : Coefficients) (db : SkillDB)
    (rr : Nat × Nat) (x : RatingExtreme)
    (hx : x ∈ rating_extreme_rows c db rr) :
    ∃ row ∈ componentRowsInRange db rr, row.player_id = x.player_id := by
  obtain ⟨p, _, ir, hir, hpid, _, rfl⟩ :=
    (mem_rating_extreme_rows c db rr x).mp hx
  obtain ⟨row, hrow, hrowpid⟩ := impact_rating_row_source c db rr ir hir
  exact ⟨row, hrow, by
    show row.player_id = p.player_id
    rw [hrowpid, hpid]⟩

theorem rating_extremes_exists_spec (c : Coefficients) (db : SkillDB)
    (rr : Nat × Nat)
    (hcomp : componentRowsInRange db rr ≠ [])
    (href : ∀ row ∈ componentRowsInRange db rr,
      ∃ p ∈ db.players, p.player_id = row.player_id) :
    ∃ lo hi, get_rating_extremes_between_rounds c db rr = some (lo, hi) ∧
      sqlMin (ratingValues c db rr) = some lo.impact_rating ∧
      sqlMax (ratingValues c db rr) = some hi.impact_rating ∧
      lo.impact_rating ≤ hi.impact_rating ∧
      ((∀ r1 ∈ componentRowsInRange db rr, ∀ r2 ∈ componentRowsInRange db rr,
          r1.player_id = r2.player_id) → lo.player_id = hi.player_id) := by
  obtain ⟨row0, hrow0⟩ := List.exists_mem_of_ne_nil _ hcomp
  have hrv_ne : ratingValues c db rr ≠ [] := by
    apply List.ne_nil_of_mem
      (a := (playerComponent c (componentRowsInRange db rr)
        row0.player_id).rating)
    unfold ratingValues impact_ratings
    exact List.mem_map.mpr ⟨_, List.mem_map.mpr ⟨row0.player_id,
      List.mem_dedup.mpr (List.mem_map.mpr ⟨row0, hrow0, rfl⟩), rfl⟩, rfl⟩
  obtain ⟨mn, hmn⟩ := sqlMin_exists hrv_ne
  obtain ⟨mx, hmx⟩ := sqlMax_exists hrv_ne
  obtain ⟨irmn, hirmn, hirmn_r⟩ := List.mem_map.mp (sqlMin_mem hmn)
  obtain ⟨irmx, hirmx, hirmx_r⟩ := List.mem_map.mp (sqlMax_mem hmx)
  obtain ⟨rowmn, hrowmn, hrowmn_pid⟩ :=
    impact_rating_row_source c db rr irmn hirmn
  obtain ⟨pmn, hpmn, hpmn_pid⟩ := href rowmn hrowmn
  obtain ⟨rowmx, hrowmx, hrowmx_pid⟩ :=
    impact_rating_row_source c db rr irmx hirmx
  obtain ⟨pmx, hpmx, hpmx_pid⟩ := href rowmx hrowmx
  have hxmn : mkRatingExtreme pmn irmn ∈ rating_extreme_rows c db rr :=
    (mem_rating_extreme_rows c db rr _).mpr
      ⟨pmn, hpmn, irmn, hirmn, (hpmn_pid.trans hrowmn_pid).symm,
        Or.inl (by rw [hmn, hirmn_r]), rfl⟩
  have hxmx : mkRatingExtreme pmx irmx ∈ rating_extreme_rows c db rr :=
    (mem_rating_extreme_rows c db rr _).mpr
      ⟨pmx, hpmx, irmx, hirmx, (hpmx_pid.trans hrowmx_pid).symm,
        Or.inr (by rw [hmx, hirmx_r]), rfl⟩
  have hperm : List.Perm
      (List.insertionSort extremeLe (rating_extreme_rows c db rr))
      (rating_extreme_rows c db rr) := List.perm_insertionSort _ _
  have hsorted : List.Pairwise extremeLe
      (List.insertionSort extremeLe (rating_extreme_rows c db rr)) :=
    List.sorted_insertionSort extremeLe (rating_extreme_rows c db rr)
  cases hs : List.insertionSort extremeLe (rating_extreme_rows c db rr) with
  | nil =>
    have := hperm.mem_iff.mpr hxmn
    rw [hs] at this
    cases this
  | cons h0 t =>
    rw [hs] at hsorted
    have hmem_sorted : ∀ y ∈ rating_extreme_rows c db rr, y ∈ h0 :: t := by
      intro y hy
      have := hperm.mem_iff.mpr hy
      rwa [hs] at this
    have hmem_rows : ∀ y ∈ h0 :: t, y ∈ rating_extreme_rows c db rr := by
      intro y hy
      apply hperm.mem_iff.mp
      rwa [hs]
    set hiE := (h0 :: t).getLast (List.cons_ne_nil h0 t) with hhiE
    have hh0_mem : h0 ∈ rating_extreme_rows c db rr :=
      hmem_rows h0 (List.mem_cons_self h0 t)
    have hhiE_mem : hiE ∈ rating_extreme_rows c db rr :=
      hmem_rows hiE (List.getLast_mem (List.cons_ne_nil h0 t))
    have hlo_rating : h0.impact_rating = mn := by
      apply le_antisymm
      · have h1 := pairwise_rel_head hsorted _ (hmem_sorted _ hxmn)
        have h2 : h0.impact_rating ≤ irmn.rating := h1
        exact hirmn_r ▸ h2
      · exact sqlMin_le hmn _ (extreme_row_rating_mem c db rr h0 hh0_mem)
    have hhi_rating : hiE.impact_rating = mx := by
      apply le_antisymm
      · exact le_sqlMax hmx _ (extreme_row_rating_mem c db rr hiE hhiE_mem)
      · have h1 := pairwise_rel_getLast hsorted (List.cons_ne_nil h0 t) _
          (hmem_sorted _ hxmx)
        have h2 : irmx.rating ≤ hiE.impact_rating := h1
        exact hirmx_r ▸ h2
    refine ⟨h0, hiE, ?_, ?_, ?_, ?_, ?_⟩
    · unfold get_rating_extremes_between_rounds
      rw [hs]
    · rw [hlo_rating]
      exact hmn
    · rw [hhi_rating]
      exact hmx
    · rw [hlo_rating, hhi_rating]
      exact sqlMin_le hmn mx (sqlMax_mem hmx)
    · intro hsingle
      obtain ⟨rowlo, hrowlo, hrowlo_pid⟩ :=
        extreme_row_player_source c db rr h0 hh0_mem
      obtain ⟨rowhi, hrowhi, hrowhi_pid⟩ :=
        extreme_row_player_source c db rr hiE hhiE_mem
      rw [← hrowlo_pid, ← hrowhi_pid]
      exact hsingle rowlo hrowlo rowhi hrowhi

/-- C8: when the day has rounds, at least one player has rating
components in range (with intact player references, so that the
rating-extremes step succeeds), but no round in the window has an MVP
recorded, `get_highlights` still succeeds: the digest carries
`most_mvps = none` while every other field is produced — the missing MVP
is never surfaced as a failure of the whole digest. -/
theorem highlights_absent_mvp (c : Coefficients) (sm : SkillModel)
    (db : SkillDB) (day first last n : Nat)
    (hres : get_round_range_for_day db day = ((some first, some last), n))
    (hn : n ≠ 0)
    (hcomp : componentRowsInRange db (first, last) ≠ [])
    (href : ∀ row ∈ componentRowsInRange db (first, last),
      ∃ p ∈ db.players, p.player_id = row.player_id)
    (hmvp : ∀ r ∈ db.rounds, first ≤ r.round_id → r.round_id ≤ last →
      r.mvp = none) :
    ∃ lo hi,
      get_rating_extremes_between_rounds c db (first, last) =
        some (lo, hi) ∧
      get_highlights c sm db day = .ok
        { time_window := (day, day + daySeconds)
          rounds_played := n
          lowest_rating := lo
          highest_rating := hi
          season_skill_group_changes :=
            (get_skill_changes_between_rounds sm db (first, last)).map
              (mkSkillChangeEntry sm)
          most_played_maps :=
            get_most_played_maps_between_rounds db (first, last)
          most_mvps := none } := by
  obtain ⟨lo, hi, hext, _⟩ :=
    rating_extremes_exists_spec c db (first, last) hcomp href
  have hnone := mvp_query_none_of_no_mvp db (first, last) hmvp
  refine ⟨lo, hi, hext, ?_⟩
  unfold get_highlights
  rw [hres]
  simp [hn, hext, hnone]

/-- Witness for C8: one round with rating components and no MVP. -/
theorem highlights_absent_mvp_witness :
    get_round_range_for_day dbNoMvp 0 = ((some 1, some 1), 1) ∧
    (1 : Nat) ≠ 0 ∧
    componentRowsInRange dbNoMvp (1, 1) ≠ [] ∧
    (∀ row ∈ componentRowsInRange dbNoMvp (1, 1),
      ∃ p ∈ dbNoMvp.players, p.player_id = row.player_id) ∧
    (∀ r ∈ dbNoMvp.rounds, 1 ≤ r.round_id → r.round_id ≤ 1 →
      r.mvp = none) ∧
    (∃ lo hi,
      get_rating_extremes_between_rounds cEx dbNoMvp (1, 1) =
        some (lo, hi) ∧
      get_highlights cEx smEx dbNoMvp 0 = .ok
        { time_window := (0, daySeconds)
          rounds_played := 1
          lowest_rating := lo
          highest_rating := hi
          season_skill_group_changes :=
            (get_skill_changes_between_rounds smEx dbNoMvp (1, 1)).map
              (mkSkillChangeEntry smEx)
          most_played_maps :=
            get_most_played_maps_between_rounds dbNoMvp (1, 1)
          most_mvps := none }) :=
  ⟨by decide, by decide, by decide, by decide, by decide,
    highlights_absent_mvp cEx smEx dbNoMvp 0 1 1 1 (by decide) (by decide)
      (by decide) (by decide) (by decide)⟩

theorem filter_flatMap_key_length (ps : List PlayerRow)
    (g : PlayerRow → List RoundRow) (p : PlayerRow)
    (hq : ∀ q ∈ ps, q.player_id = p.player_id →
      q.steam_name = p.steam_name → q = p) :
    ((ps.flatMap fun q => (g q).map fun r => (q, r)).filter fun pr =>
        decide (pr.1.player_id = p.player_id ∧
          pr.1.steam_name = p.steam_name)).length
      = ps.count p * (g p).length := by
  induction ps with
  | nil => simp
  | cons q qs ih =>
    rw [List.flatMap_cons, List.filter_append, List.length_append]
    have hqs : ∀ x ∈ qs, x.player_id = p.player_id →
        x.steam_name = p.steam_name → x = p :=
      fun x hx => hq x (List.mem_cons_of_mem q hx)
    rw [ih hqs]
    by_cases hqp : q = p
    · subst hqp
      have hseg : ((g q).map fun r => (q, r)).filter (fun pr =>
            decide (pr.1.player_id = q.player_id ∧
              pr.1.steam_name = q.steam_name)) =
          (g q).map fun r => (q, r) := by
        rw [List.filter_eq_self]
        intro pr hpr
        obtain ⟨r, _, rfl⟩ := List.mem_map.mp hpr
        simp
      rw [hseg, List.length_map, List.count_cons_self, Nat.succ_mul]
      omega
    · have hkey : ¬(q.player_id = p.player_id ∧
          q.steam_name = p.steam_name) := by
        rintro ⟨h1, h2⟩
        exact hqp (hq q (List.mem_cons_self q qs) h1 h2)
      have hseg : ((g q).map fun r => (q, r)).filter (fun pr =>
            decide (pr.1.player_id = p.player_id ∧
              pr.1.steam_name = p.steam_name)) = [] := by
        rw [List.filter_eq_nil_iff]
        intro pr hpr
        obtain ⟨r, _, rfl⟩ := List.mem_map.mp hpr
        simpa using hkey
      rw [hseg, List.count_cons_of_ne (fun h => hqp h.symm)]
      simp

theorem mem_mvpJoinRows (db : SkillDB) (rr : Nat × Nat)
    (q : PlayerRow) (r : RoundRow) :
    (q, r) ∈ mvpJoinRows db rr ↔
      q ∈ db.players ∧ r ∈ db.rounds ∧ r.mvp = some q.player_id ∧
        rr.1 ≤ r.round_id ∧ r.round_id ≤ rr.2 := by
  unfold mvpJoinRows
  rw [List.mem_flatMap]
  constructor
  · rintro ⟨q', hq', hmem⟩
    obtain ⟨r', hr', heq⟩ := List.mem_map.mp hmem
    have h1 : q' = q := congrArg Prod.fst heq
    have h2 : r' = r := congrArg Prod.snd heq
    subst h1
    subst h2
    have hf := List.mem_filter.mp hr'
    simp only [decide_eq_true_eq] at hf
    exact ⟨hq', hf.1, hf.2.1, hf.2.2.1, hf.2.2.2⟩
  · rintro ⟨h1, h2, h3, h4, h5⟩
    exact ⟨q, h1, List.mem_map.mpr
      ⟨r, List.mem_filter.mpr ⟨h2, by simp [h3, h4, h5]⟩, rfl⟩⟩

theorem mvpGroups_spec (db : SkillDB) (rr : Nat × Nat)
    (hnodup : (db.players.map (·.player_id)).Nodup) :
    (∀ g ∈ mvpGroups db rr, ∃ p ∈ db.players,
        g.player_id = p.player_id ∧ g.steam_name = p.steam_name ∧
        g.mvps = mvpCount db rr p.player_id) ∧
    (∀ p ∈ db.players, 0 < mvpCount db rr p.player_id →
      ∃ g ∈ mvpGroups db rr, g.player_id = p.player_id ∧
        g.mvps = mvpCount db rr p.player_id) := by
  have hinj := List.inj_on_of_nodup_map hnodup
  have hpnodup : db.players.Nodup := hnodup.of_map
  have hgrouplen : ∀ p ∈ db.players,
      ((mvpJoinRows db rr).filter fun pr =>
          decide (pr.1.player_id = p.player_id ∧
            pr.1.steam_name = p.steam_name)).length =
        mvpCount db rr p.player_id := by
    intro p hp
    unfold mvpJoinRows
    rw [filter_flatMap_key_length db.players _ p
      (fun q hq h1 _ => hinj hq hp h1)]
    rw [List.count_eq_one_of_mem hpnodup hp, one_mul]
    rfl
  constructor
  · intro g hg
    unfold mvpGroups at hg
    obtain ⟨k, hk, rfl⟩ := List.mem_map.mp hg
    have hk' : k ∈ (mvpJoinRows db rr).map
        (fun pr => (pr.1.player_id, pr.1.steam_name)) :=
      List.mem_dedup.mp hk
    obtain ⟨pr, hpr, rfl⟩ := List.mem_map.mp hk'
    have hq : pr.1 ∈ db.players := by
      have := (mem_mvpJoinRows db rr pr.1 pr.2).mp (by
        have : (pr.1, pr.2) = pr := rfl
        rw [this]
        exact hpr)
      exact this.1
    exact ⟨pr.1, hq, rfl, rfl, hgrouplen pr.1 hq⟩
  · intro p hp hc
    have hround : ∃ r ∈ db.rounds,
        (r.mvp = some p.player_id ∧ rr.1 ≤ r.round_id ∧
          r.round_id ≤ rr.2) := by
      unfold mvpCount at hc
      rcases List.length_pos_iff_exists_mem.mp hc with ⟨r, hr⟩
      have := List.mem_filter.mp hr
      simp only [decide_eq_true_eq] at this
      exact ⟨r, this.1, this.2⟩
    obtain ⟨r, hr, hcond⟩ := hround
    have hrow : (p, r) ∈ mvpJoinRows db rr :=
      (mem_mvpJoinRows db rr p r).mpr
        ⟨hp, hr, hcond.1, hcond.2.1, hcond.2.2⟩
    have hkey : (p.player_id, p.steam_name) ∈
        ((mvpJoinRows db rr).map
          (fun pr => (pr.1.player_id, pr.1.steam_name))).dedup :=
      List.mem_dedup.mpr (List.mem_map.mpr ⟨(p, r), hrow, rfl⟩)
    refine ⟨⟨p.player_id, p.steam_name,
      ((mvpJoinRows db rr).filter fun pr =>
          decide (pr.1.player_id = p.player_id ∧
            pr.1.steam_name = p.steam_name)).length⟩,
      ?_, rfl, hgrouplen p hp⟩
    unfold mvpGroups
    exact List.mem_map.mpr ⟨(p.player_id, p.steam_name), hkey, rfl⟩

/-- C9: when at least one round in range has an MVP recorded (for a
player present in the players table, with unique player identifiers),
the MVP Leader returns one entry for an existing player whose `mvps`
count equals that player's true MVP count in range, and that count is
the maximum MVP count over all players. -/
theorem most_mvps_spec (db : SkillDB) (rr : Nat × Nat)
    (hnodup : (db.players.map (·.player_id)).Nodup)
    (hex : ∃ p ∈ db.players, 0 < mvpCount db rr p.player_id) :
    ∃ m, get_player_with_most_mvps_between_rounds db rr = some m ∧
      (∃ p ∈ db.players, m.player_id = p.player_id ∧
        m.steam_name = p.steam_name) ∧
      m.mvps = mvpCount db rr m.player_id ∧
      ∀ p ∈ db.players, mvpCount db rr p.player_id ≤ m.mvps := by
  obtain ⟨hall, hexist⟩ := mvpGroups_spec db rr hnodup
  obtain ⟨p0, hp0, hcnt0⟩ := hex
  obtain ⟨g0, hg0, _, _⟩ := hexist p0 hp0 hcnt0
  have hperm : List.Perm (List.insertionSort mvpGe (mvpGroups db rr))
      (mvpGroups db rr) := List.perm_insertionSort _ _
  have hg0s : g0 ∈ List.insertionSort mvpGe (mvpGroups db rr) :=
    hperm.mem_iff.mpr hg0
  cases hs : List.insertionSort mvpGe (mvpGroups db rr) with
  | nil =>
    rw [hs] at hg0s
    cases hg0s
  | cons m rest =>
    have hsorted : List.Pairwise mvpGe
        (List.insertionSort mvpGe (mvpGroups db rr)) :=
      List.sorted_insertionSort mvpGe (mvpGroups db rr)
    rw [hs] at hsorted
    have hmax : ∀ g ∈ mvpGroups db rr, g.mvps ≤ m.mvps := by
      intro g hg
      have hgs : g ∈ List.insertionSort mvpGe (mvpGroups db rr) :=
        hperm.mem_iff.mpr hg
      rw [hs] at hgs
      rcases List.mem_cons.mp hgs with rfl | hgs
      · exact le_refl _
      · exact (List.pairwise_cons.mp hsorted).1 g hgs
    have hm_mem : m ∈ mvpGroups db rr :=
      hperm.mem_iff.mp (hs ▸ List.mem_cons_self m rest)
    obtain ⟨pm, hpm, hpid, hname, hmv⟩ := hall m hm_mem
    refine ⟨m, ?_, ⟨pm, hpm, hpid, hname⟩, ?_, ?_⟩
    · unfold get_player_with_most_mvps_between_rounds
      rw [hs]
      rfl
    · rw [hmv, hpid]
    · intro p hp
      by_cases hc : 0 < mvpCount db rr p.player_id
      · obtain ⟨g, hg, _, hgmv⟩ := hexist p hp hc
        calc mvpCount db rr p.player_id = g.mvps := hgmv.symm
          _ ≤ m.mvps := hmax g hg
      · omega

/-- Witness for C9 at a store where bob has two MVP rounds and alice
one. -/
theorem most_mvps_spec_witness :
    (dbMvp.players.map (·.player_id)).Nodup ∧
    (∃ p ∈ dbMvp.players, 0 < mvpCount dbMvp (1, 3) p.player_id) ∧
    (∃ m, get_player_with_most_mvps_between_rounds dbMvp (1, 3) = some m ∧
      (∃ p ∈ dbMvp.players, m.player_id = p.player_id ∧
        m.steam_name = p.steam_name) ∧
      m.mvps = mvpCount dbMvp (1, 3) m.player_id ∧
      ∀ p ∈ dbMvp.players, mvpCount dbMvp (1, 3) p.player_id ≤ m.mvps) :=
  ⟨by decide, ⟨⟨1, "alice"⟩, by decide, by decide⟩,
    most_mvps_spec dbMvp (1, 3) (by decide)
      ⟨⟨1, "alice"⟩, by decide, by decide⟩⟩

/-- C3: for every player with at least one rating-component row in the
inclusive round range, the `components` grouping contains exactly one
entry for that player, carrying the arithmetic mean of each of the four
sub-scores over the rows of that player and the row count, and the
impact rating of the entry equals
`c1*avg_kills + c2*avg_deaths + c3*avg_damage + c4*avg_kas + c5` for the
five externally supplied coefficients. -/
theorem impact_rating_formula (c : Coefficients) (db : SkillDB)
    (rr : Nat × Nat) (pid : Nat)
    (hex : ∃ row ∈ componentRowsInRange db rr, row.player_id = pid) :
    (impact_ratings c db rr).Pairwise
      (fun a b => a.player_id ≠ b.player_id) ∧
    ∃ ir ∈ impact_ratings c db rr, ir.player_id = pid ∧
      ir.rounds_played = ((componentRowsInRange db rr).filter fun s =>
        decide (s.player_id = pid)).length ∧
      ir.average_kills = (((componentRowsInRange db rr).filter fun s =>
          decide (s.player_id = pid)).map (·.kill_rating)).sum /
        ((((componentRowsInRange db rr).filter fun s =>
          decide (s.player_id = pid)).length : ℚ)) ∧
      ir.average_deaths = (((componentRowsInRange db rr).filter fun s =>
          decide (s.player_id = pid)).map (·.death_rating)).sum /
        ((((componentRowsInRange db rr).filter fun s =>
          decide (s.player_id = pid)).length : ℚ)) ∧
      ir.average_damage = (((componentRowsInRange db rr).filter fun s =>
          decide (s.player_id = pid)).map (·.damage_rating)).sum /
        ((((componentRowsInRange db rr).filter fun s =>
          decide (s.player_id = pid)).length : ℚ)) ∧
      ir.average_kas = (((componentRowsInRange db rr).filter fun s =>
          decide (s.player_id = pid)).map (·.kas_rating)).sum /
        ((((componentRowsInRange db rr).filter fun s =>
          decide (s.player_id = pid)).length : ℚ)) ∧
      ir.rating = c.c1 * ir.average_kills + c.c2 * ir.average_deaths +
        c.c3 * ir.average_damage + c.c4 * ir.average_kas + c.c5 := by
  constructor
  · unfold impact_ratings
    apply List.pairwise_map.mpr
    refine (List.nodup_dedup _).imp ?_
    intro a b hab
    exact hab
  · obtain ⟨row, hrow, hpid⟩ := hex
    have hmem : pid ∈ groupPlayerIds (componentRowsInRange db rr) :=
      List.mem_dedup.mpr (List.mem_map.mpr ⟨row, hrow, hpid⟩)
    exact ⟨playerComponent c (componentRowsInRange db rr) pid,
      List.mem_map.mpr ⟨pid, hmem, rfl⟩,
      rfl, rfl, rfl, rfl, rfl, rfl, rfl⟩

/-- Witness for C3: player 7 has one component row in range. -/
theorem impact_rating_formula_witness :
    (∃ row ∈ componentRowsInRange dbNoMvp (1, 1), row.player_id = 7) ∧
    ((impact_ratings cEx dbNoMvp (1, 1)).Pairwise
      (fun a b => a.player_id ≠ b.player_id) ∧
    ∃ ir ∈ impact_ratings cEx dbNoMvp (1, 1), ir.player_id = 7 ∧
      ir.rounds_played = ((componentRowsInRange dbNoMvp (1, 1)).filter
        fun s => decide (s.player_id = 7)).length ∧
      ir.average_kills = (((componentRowsInRange dbNoMvp (1, 1)).filter
          fun s => decide (s.player_id = 7)).map (·.kill_rating)).sum /
        ((((componentRowsInRange dbNoMvp (1, 1)).filter fun s =>
          decide (s.player_id = 7)).length : ℚ)) ∧
      ir.average_deaths = (((componentRowsInRange dbNoMvp (1, 1)).filter
          fun s => decide (s.player_id = 7)).map (·.death_rating)).sum /
        ((((componentRowsInRange dbNoMvp (1, 1)).filter fun s =>
          decide (s.player_id = 7)).length : ℚ)) ∧
      ir.average_damage = (((componentRowsInRange dbNoMvp (1, 1)).filter
          fun s => decide (s.player_id = 7)).map (·.damage_rating)).sum /
        ((((componentRowsInRange dbNoMvp (1, 1)).filter fun s =>
          decide (s.player_id = 7)).length : ℚ)) ∧
      ir.average_kas = (((componentRowsInRange dbNoMvp (1, 1)).filter
          fun s => decide (s.player_id = 7)).map (·.kas_rating)).sum /
        ((((componentRowsInRange dbNoMvp (1, 1)).filter fun s =>
          decide (s.player_id = 7)).length : ℚ)) ∧
      ir.rating = cEx.c1 * ir.average_kills + cEx.c2 * ir.average_deaths +
        cEx.c3 * ir.average_damage + cEx.c4 * ir.average_kas + cEx.c5) :=
  ⟨by decide, impact_rating_formula cEx dbNoMvp (1, 1) 7 (by decide)⟩

/-- C4: whenever at least one player has rating-component rows in the
round range (and the referenced players exist), the pair returned by the
rating-extremes query is defined, its first component carries the global
minimum impact rating, its second the global maximum, the first is at
most the second, and when all in-range component rows belong to a single
player the two entries reference that same player. -/
theorem rating_extremes_spec (c : Coefficients) (db : SkillDB)
    (rr : Nat × Nat)
    (hcomp : componentRowsInRange db rr ≠ [])
    (href : ∀ row ∈ componentRowsInRange db rr,
      ∃ p ∈ db.players, p.player_id = row.player_id) :
    ∃ lo hi, get_rating_extremes_between_rounds c db rr = some (lo, hi) ∧
      sqlMin (ratingValues c db rr) = some lo.impact_rating ∧
      sqlMax (ratingValues c db rr) = some hi.impact_rating ∧
      lo.impact_rating ≤ hi.impact_rating ∧
      ((∀ r1 ∈ componentRowsInRange db rr,
          ∀ r2 ∈ componentRowsInRange db rr,
          r1.player_id = r2.player_id) → lo.player_id = hi.player_id) :=
  rating_extremes_exists_spec c db rr hcomp href

/-- Witness for C4: a single player with one component row in range. -/
theorem rating_extremes_spec_witness :
    componentRowsInRange dbNoMvp (1, 1) ≠ [] ∧
    (∀ row ∈ componentRowsInRange dbNoMvp (1, 1),
      ∃ p ∈ dbNoMvp.players, p.player_id = row.player_id) ∧
    (∃ lo hi,
      get_rating_extremes_between_rounds cEx dbNoMvp (1, 1) =
        some (lo, hi) ∧
      sqlMin (ratingValues cEx dbNoMvp (1, 1)) = some lo.impact_rating ∧
      sqlMax (ratingValues cEx dbNoMvp (1, 1)) = some hi.impact_rating ∧
      lo.impact_rating ≤ hi.impact_rating ∧
      ((∀ r1 ∈ componentRowsInRange dbNoMvp (1, 1),
          ∀ r2 ∈ componentRowsInRange dbNoMvp (1, 1),
          r1.player_id = r2.player_id) → lo.player_id = hi.player_id)) :=
  ⟨by decide, by decide,
    rating_extremes_spec cEx dbNoMvp (1, 1) (by decide) (by decide)⟩

theorem mem_historyBefore_iff (db : SkillDB) (pid first : Nat)
    (s : SkillHistoryRow) :
    s ∈ historyBefore db pid first ↔
      s ∈ db.season_skill_history ∧ s.player_id = pid ∧
        s.round_id ≤ first := by
  unfold historyBefore
  rw [List.mem_filter]
  simp only [decide_eq_true_eq]

theorem mem_historyAfter_iff (db : SkillDB) (pid last : Nat)
    (s : SkillHistoryRow) :
    s ∈ historyAfter db pid last ↔
      s ∈ db.season_skill_history ∧ s.player_id = pid ∧
        last ≤ s.round_id := by
  unfold historyAfter
  rw [List.mem_filter]
  simp only [decide_eq_true_eq]

theorem mem_skill_change_rows (db : SkillDB) (rr : Nat × Nat)
    (p : PlayerRow) (e l : SkillHistoryRow) :
    (p, e, l) ∈ skill_change_rows db rr ↔
      p ∈ db.players ∧
      (e ∈ db.season_skill_history ∧ e.player_id = p.player_id ∧
        sqlMax ((historyBefore db p.player_id rr.1).map (·.round_id)) =
          some e.round_id) ∧
      (l ∈ db.season_skill_history ∧ l.player_id = p.player_id ∧
        sqlMin ((historyAfter db p.player_id rr.2).map (·.round_id)) =
          some l.round_id) := by
  unfold skill_change_rows
  rw [List.mem_flatMap]
  constructor
  · rintro ⟨p', hp', hmem⟩
    rw [List.mem_flatMap] at hmem
    obtain ⟨e', he', hmem2⟩ := hmem
    obtain ⟨l', hl', heq⟩ := List.mem_map.mp hmem2
    have h1 : p' = p := congrArg (fun t => t.1) heq
    have hrest : (e', l') = (e, l) := congrArg (fun t => t.2) heq
    have h2 : e' = e := congrArg (fun t => t.1) hrest
    have h3 : l' = l := congrArg (fun t => t.2) hrest
    subst h1
    subst h2
    subst h3
    have hfe := List.mem_filter.mp he'
    have hfl := List.mem_filter.mp hl'
    simp only [decide_eq_true_eq] at hfe hfl
    exact ⟨hp', ⟨hfe.1, hfe.2.1, hfe.2.2⟩, ⟨hfl.1, hfl.2.1, hfl.2.2⟩⟩
  · rintro ⟨hp', ⟨he1, he2, he3⟩, ⟨hl1, hl2, hl3⟩⟩
    refine ⟨p, hp', ?_⟩
    rw [List.mem_flatMap]
    refine ⟨e, List.mem_filter.mpr ⟨he1, by simp [he2, he3]⟩, ?_⟩
    exact List.mem_map.mpr
      ⟨l, List.mem_filter.mpr ⟨hl1, by simp [hl2, hl3]⟩, rfl⟩

/-- C5: the earlier snapshot of a bracketed pair is the skill-history
row of the player with the maximum round identifier at or before the
first round of the window, the later snapshot the row with the minimum
round identifier at or after the last round, each side computed
independently per player; a pair exists exactly when both sides exist
(unique under the per-(player, round) key), and a player lacking a
snapshot on either side contributes no row — and causes no error, the
query simply omits the player. -/
theorem skill_change_bracketing (db : SkillDB) (rr : Nat × Nat)
    (p : PlayerRow) (hp : p ∈ db.players)
    (hkey : (db.season_skill_history.map fun s =>
      (s.player_id, s.round_id)).Nodup) :
    (∀ e l, (p, e, l) ∈ skill_change_rows db rr →
        (e ∈ historyBefore db p.player_id rr.1 ∧
          ∀ s ∈ historyBefore db p.player_id rr.1,
            s.round_id ≤ e.round_id) ∧
        (l ∈ historyAfter db p.player_id rr.2 ∧
          ∀ s ∈ historyAfter db p.player_id rr.2,
            l.round_id ≤ s.round_id)) ∧
    ((historyBefore db p.player_id rr.1 ≠ [] ∧
        historyAfter db p.player_id rr.2 ≠ []) →
      ∃ e l, (p, e, l) ∈ skill_change_rows db rr) ∧
    ((historyBefore db p.player_id rr.1 = [] ∨
        historyAfter db p.player_id rr.2 = []) →
      ∀ e l, (p, e, l) ∉ skill_change_rows db rr) ∧
    (∀ e1 l1 e2 l2, (p, e1, l1) ∈ skill_change_rows db rr →
      (p, e2, l2) ∈ skill_change_rows db rr → e1 = e2 ∧ l1 = l2) := by
  have hinj := List.inj_on_of_nodup_map hkey
  refine ⟨?_, ?_, ?_, ?_⟩
  · intro e l hmem
    obtain ⟨_, ⟨he1, he2, he3⟩, ⟨hl1, hl2, hl3⟩⟩ :=
      (mem_skill_change_rows db rr p e l).mp hmem
    obtain ⟨se, hse, hse_r⟩ := List.mem_map.mp (sqlMax_mem he3)
    obtain ⟨sl, hsl, hsl_r⟩ := List.mem_map.mp (sqlMin_mem hl3)
    have hse_le : se.round_id ≤ rr.1 :=
      ((mem_historyBefore_iff db p.player_id rr.1 se).mp hse).2.2
    have hsl_ge : rr.2 ≤ sl.round_id :=
      ((mem_historyAfter_iff db p.player_id rr.2 sl).mp hsl).2.2
    refine ⟨⟨?_, ?_⟩, ⟨?_, ?_⟩⟩
    · exact (mem_historyBefore_iff db p.player_id rr.1 e).mpr
        ⟨he1, he2, by rw [← hse_r]; exact hse_le⟩
    · intro s hs
      exact le_sqlMax he3 s.round_id (List.mem_map.mpr ⟨s, hs, rfl⟩)
    · exact (mem_historyAfter_iff db p.player_id rr.2 l).mpr
        ⟨hl1, hl2, by rw [← hsl_r]; exact hsl_ge⟩
    · intro s hs
      exact sqlMin_le hl3 s.round_id (List.mem_map.mpr ⟨s, hs, rfl⟩)
  · rintro ⟨hb, ha⟩
    have hb' : (historyBefore db p.player_id rr.1).map (·.round_id) ≠ []
        := by simpa using hb
    have ha' : (historyAfter db p.player_id rr.2).map (·.round_id) ≠ []
        := by simpa using ha
    obtain ⟨me, hme⟩ := sqlMax_exists hb'
    obtain ⟨ml, hml⟩ := sqlMin_exists ha'
    obtain ⟨e, he, he_r⟩ := List.mem_map.mp (sqlMax_mem hme)
    obtain ⟨l, hl, hl_r⟩ := List.mem_map.mp (sqlMin_mem hml)
    have heb := (mem_historyBefore_iff db p.player_id rr.1 e).mp he
    have hlb := (mem_historyAfter_iff db p.player_id rr.2 l).mp hl
    exact ⟨e, l, (mem_skill_change_rows db rr p e l).mpr
      ⟨hp, ⟨heb.1, heb.2.1, by rw [hme, he_r]⟩,
        ⟨hlb.1, hlb.2.1, by rw [hml, hl_r]⟩⟩⟩
  · intro hempty e l hmem
    obtain ⟨_, ⟨_, _, he3⟩, ⟨_, _, hl3⟩⟩ :=
      (mem_skill_change_rows db rr p e l).mp hmem
    rcases hempty with hb | ha
    · rw [hb] at he3
      simp [sqlMax] at he3
    · rw [ha] at hl3
      simp [sqlMin] at hl3
  · intro e1 l1 e2 l2 h1 h2
    obtain ⟨_, ⟨he11, he12, he13⟩, ⟨hl11, hl12, hl13⟩⟩ :=
      (mem_skill_change_rows db rr p e1 l1).mp h1
    obtain ⟨_, ⟨he21, he22, he23⟩, ⟨hl21, hl22, hl23⟩⟩ :=
      (mem_skill_change_rows db rr p e2 l2).mp h2
    have her : e1.round_id = e2.round_id :=
      Option.some.inj (he13.symm.trans he23)
    have hlr : l1.round_id = l2.round_id :=
      Option.some.inj (hl13.symm.trans hl23)
    constructor
    · exact hinj he11 he21 (by rw [he12, he22, her])
    · exact hinj hl11 hl21 (by rw [hl12, hl22, hlr])

/-- Witness for C5 at the snapshot store with history at rounds 5, 15,
25 and window 10..20. -/
theorem skill_change_bracketing_witness :
    (⟨1, "alice"⟩ : PlayerRow) ∈ dbSkill.players ∧
    (dbSkill.season_skill_history.map fun s =>
      (s.player_id, s.round_id)).Nodup ∧
    (((∀ e l, ((⟨1, "alice"⟩ : PlayerRow), e, l) ∈
        skill_change_rows dbSkill (10, 20) →
        (e ∈ historyBefore dbSkill 1 10 ∧
          ∀ s ∈ historyBefore dbSkill 1 10, s.round_id ≤ e.round_id) ∧
        (l ∈ historyAfter dbSkill 1 20 ∧
          ∀ s ∈ historyAfter dbSkill 1 20, l.round_id ≤ s.round_id)) ∧
      ((historyBefore dbSkill 1 10 ≠ [] ∧ historyAfter dbSkill 1 20 ≠ [])
        → ∃ e l, ((⟨1, "alice"⟩ : PlayerRow), e, l) ∈
            skill_change_rows dbSkill (10, 20)) ∧
      ((historyBefore dbSkill 1 10 = [] ∨ historyAfter dbSkill 1 20 = [])
        → ∀ e l, ((⟨1, "alice"⟩ : PlayerRow), e, l) ∉
            skill_change_rows dbSkill (10, 20)) ∧
      (∀ e1 l1 e2 l2,
        ((⟨1, "alice"⟩ : PlayerRow), e1, l1) ∈
          skill_change_rows dbSkill (10, 20) →
        ((⟨1, "alice"⟩ : PlayerRow), e2, l2) ∈
          skill_change_rows dbSkill (10, 20) → e1 = e2 ∧ l1 = l2))) :=
  ⟨by decide, by decide,
    skill_change_bracketing dbSkill (10, 20) ⟨1, "alice"⟩ (by decide)
      (by decide)⟩

/-- C6: the skill-change result consists of exactly those bracketed
pairs whose derived skill-group labels differ — a pair with an identical
label on both sides is excluded no matter how its numeric mean or
standard deviation changed, for every derivation model — and the kept
pairs are ordered descending by the mmr of the later snapshot. -/
theorem skill_changes_filter_sort (sm : SkillModel) (db : SkillDB)
    (rr : Nat × Nat) :
    (∀ pr, pr ∈ get_skill_changes_between_rounds sm db rr ↔
        (pr ∈ (skill_change_rows db rr).map mkSkillChangePair ∧
          Player.skill_group sm pr.1 ≠ Player.skill_group sm pr.2)) ∧
    (get_skill_changes_between_rounds sm db rr).Pairwise
      (fun a b => Player.mmr sm b.2 ≤ Player.mmr sm a.2) := by
  unfold get_skill_changes_between_rounds
  have hperm : List.Perm
      (List.insertionSort (changeGe sm)
        ((skill_change_rows db rr).map mkSkillChangePair))
      ((skill_change_rows db rr).map mkSkillChangePair) :=
    List.perm_insertionSort _ _
  constructor
  · intro pr
    rw [List.mem_filter]
    simp only [decide_eq_true_eq]
    rw [hperm.mem_iff]
  · have hsorted := List.sorted_insertionSort (changeGe sm)
      ((skill_change_rows db rr).map mkSkillChangePair)
    exact List.Pairwise.sublist (List.filter_sublist _) hsorted

end Truescrub
